import Mathlib

/-!
Verification of the POS back office's stock ledger and transaction builder.

The definitions below are a shallow embedding of the TypeScript handlers in
`src/server/src/handlers/transactions.ts` and the inventory handler module
(`getStockByBranch`/`updateStock`/`transferStock`/`reserveStock`/
`releaseReservedStock`): the relational store becomes an explicit `DB`
value, each handler becomes a function from the pre-state to a pair of
post-state and `Except` result, monetary `numeric` columns become exact
rationals, and `integer` columns become integers.  A handler that throws
before performing any write returns the unchanged pre-state together with
the error; `db.transaction` blocks are embedded by discarding the partially
built state when the block fails, which is exactly the rollback the store
provides.
-/

namespace POS

/-- Movement types of the `stock_movements` table (`stockMovementTypeSchema`). -/
inductive MovementType
  | IN
  | OUT
  | TRANSFER
  | ADJUSTMENT
deriving DecidableEq, Repr

/-- Transaction states (`transactionStatusEnum`). -/
inductive TxStatus
  | PENDING
  | COMPLETED
  | CANCELLED
  | HOLD
deriving DecidableEq, Repr

/-- Errors thrown by the embedded handlers; each constructor corresponds to one
`throw new Error(...)` site in the source. -/
inductive Err
  | customerNotFound
  | productNotFound (pid : ℕ)
  | addonNotFound (aid : ℕ)
  | addonRowMissing (aid : ℕ)
  | insufficientStockForProduct (pid : ℕ)
  | noStockRecord (pid bid : ℕ)
  | insufficientStock
  | insufficientStockForTransfer
  | stockRecordNotFound
  | insufficientAvailableStock
  | overRelease
  | invalidInput
deriving DecidableEq, Repr

/-- A row of the `stock` table. -/
structure StockRow where
  id : ℕ
  product_id : ℕ
  branch_id : ℕ
  quantity : ℤ
  reserved_quantity : ℤ
deriving DecidableEq, Repr

/-- A row of the `stock_movements` table (audit columns that no claim reads,
such as `created_at`, are omitted). -/
structure StockMovementRow where
  product_id : ℕ
  branch_id : ℕ
  movement_type : MovementType
  quantity : ℤ
  user_id : ℕ
  notes : Option String
deriving DecidableEq, Repr

/-- A row of the `addons` table (only the columns `createTransaction` reads). -/
structure AddonRow where
  id : ℕ
  price : ℚ
deriving DecidableEq, Repr

/-- A row of the `transactions` table. -/
structure TransactionRow where
  id : ℕ
  transaction_number : String
  branch_id : ℕ
  customer_id : Option ℕ
  user_id : ℕ
  subtotal : ℚ
  discount_amount : ℚ
  tax_amount : ℚ
  total_amount : ℚ
  status : TxStatus
  notes : Option String
deriving DecidableEq, Repr

/-- A row of the `transaction_items` table. -/
structure TransactionItemRow where
  id : ℕ
  transaction_id : ℕ
  product_id : ℕ
  product_variant_id : Option ℕ
  quantity : ℤ
  unit_price : ℚ
  discount_amount : ℚ
  total_amount : ℚ
  notes : Option String
deriving DecidableEq, Repr

/-- A row of the `transaction_item_addons` table. -/
structure TransactionItemAddonRow where
  transaction_item_id : ℕ
  addon_id : ℕ
  quantity : ℤ
  unit_price : ℚ
  total_price : ℚ
deriving DecidableEq, Repr

/-- A row of the `transaction_payments` table. -/
structure TransactionPaymentRow where
  transaction_id : ℕ
  payment_method : String
  amount : ℚ
  reference_number : Option String
deriving DecidableEq, Repr

/-- The relational store: the tables the transaction and inventory handlers
touch, plus the serial-id counters the store uses for `.returning()` rows. -/
structure DB where
  customers : List ℕ
  products : List ℕ
  addons : List AddonRow
  stock : List StockRow
  stockMovements : List StockMovementRow
  transactions : List TransactionRow
  transactionItems : List TransactionItemRow
  transactionItemAddons : List TransactionItemAddonRow
  transactionPayments : List TransactionPaymentRow
  nextStockId : ℕ
  nextTransactionId : ℕ
  nextItemId : ℕ
deriving DecidableEq, Repr

/-- The `select ... where product_id = pid and branch_id = bid` lookup on the
stock table; the handlers use the first returned row. -/
def findStockIn (l : List StockRow) (pid bid : ℕ) : Option StockRow :=
  l.find? (fun r => r.product_id == pid && r.branch_id == bid)

/-- The `select ... where id = aid` lookup on the addons table. -/
def findAddon (db : DB) (aid : ℕ) : Option AddonRow :=
  db.addons.find? (fun a => a.id == aid)

/-- The `update stock set ... where id = rid` write: every row whose `id`
matches is replaced by its image under `f`. -/
def setStockById (l : List StockRow) (rid : ℕ) (f : StockRow → StockRow) : List StockRow :=
  l.map (fun r => if r.id = rid then f r else r)

/-- The `insert into stock_movements` write performed at the end of
`updateStock`. -/
def appendMovement (db : DB) (pid bid : ℕ) (mt : MovementType) (q : ℤ) (uid : ℕ)
    (nt : Option String) : DB :=
  { db with stockMovements := db.stockMovements ++ [⟨pid, bid, mt, q, uid, nt⟩] }

/-- Embedding of `updateStock` (inventory handler module): looks up the
`(product_id, branch_id)` stock row; if absent, inserts a fresh row whose
quantity is the movement quantity for `IN`/`ADJUSTMENT` and `0` otherwise; if
present, applies the movement to the on-hand quantity, rejecting an `OUT`
that would drive it negative; finally appends one `stock_movements` row whose
quantity is negated for `OUT`.  The pre-state is returned unchanged on error
because the source throws before performing any write. -/
def updateStock (db : DB) (productId branchId : ℕ) (quantity : ℤ)
    (movementType : MovementType) (userId : ℕ) (nt : Option String) :
    DB × Except Err StockRow :=
  match findStockIn db.stock productId branchId with
  | none =>
    let initialQuantity : ℤ :=
      match movementType with
      | .IN => quantity
      | .ADJUSTMENT => quantity
      | _ => 0
    let newRow : StockRow :=
      ⟨db.nextStockId, productId, branchId, initialQuantity, 0⟩
    let db1 := { db with
      stock := db.stock ++ [newRow],
      nextStockId := db.nextStockId + 1 }
    let db2 := appendMovement db1 productId branchId movementType
      (if movementType = .OUT then -quantity else quantity) userId nt
    (db2, .ok newRow)
  | some currentStock =>
    let newQuantityE : Except Err ℤ :=
      match movementType with
      | .IN => .ok (currentStock.quantity + quantity)
      | .OUT =>
        if currentStock.quantity - quantity < 0 then .error .insufficientStock
        else .ok (currentStock.quantity - quantity)
      | .ADJUSTMENT => .ok quantity
      | .TRANSFER => .ok currentStock.quantity
    match newQuantityE with
    | .error e => (db, .error e)
    | .ok newQuantity =>
      let db1 := { db with
        stock := setStockById db.stock currentStock.id
          (fun r => { r with quantity := newQuantity }) }
      let db2 := appendMovement db1 productId branchId movementType
        (if movementType = .OUT then -quantity else quantity) userId nt
      (db2, .ok { currentStock with quantity := newQuantity })

/-- Embedding of `transferStock`: checks the source row exists and holds at
least the requested quantity, then performs an `OUT` movement at the source
branch followed by an `IN` movement at the destination branch.  The two legs
are not wrapped in a store transaction in the source, so the state produced
by a completed leg is kept even if a later leg fails. -/
def transferStock (db : DB) (productId fromBranchId toBranchId : ℕ) (quantity : ℤ)
    (userId : ℕ) : DB × Except Err Bool :=
  match findStockIn db.stock productId fromBranchId with
  | none => (db, .error .insufficientStockForTransfer)
  | some sourceStock =>
    if sourceStock.quantity < quantity then (db, .error .insufficientStockForTransfer)
    else
      let r1 := updateStock db productId fromBranchId quantity .OUT userId
        (some ("Transfer to branch " ++ toString toBranchId))
      match r1.2 with
      | .error e => (r1.1, .error e)
      | .ok _ =>
        let r2 := updateStock r1.1 productId toBranchId quantity .IN userId
          (some ("Transfer from branch " ++ toString fromBranchId))
        match r2.2 with
        | .error e => (r2.1, .error e)
        | .ok _ => (r2.1, .ok true)

/-- Embedding of `reserveStock`: fails when no stock row exists for the pair,
fails when the available quantity (on-hand minus reserved) is below the
request, and otherwise adds the request to `reserved_quantity`. -/
def reserveStock (db : DB) (productId branchId : ℕ) (quantity : ℤ) :
    DB × Except Err Bool :=
  match findStockIn db.stock productId branchId with
  | none => (db, .error .stockRecordNotFound)
  | some currentStock =>
    if currentStock.quantity - currentStock.reserved_quantity < quantity then
      (db, .error .insufficientAvailableStock)
    else
      ({ db with
          stock := setStockById db.stock currentStock.id
            (fun r => { r with
              reserved_quantity := currentStock.reserved_quantity + quantity }) },
        .ok true)

/-- Embedding of `releaseReservedStock`: fails when no stock row exists for
the pair, fails when the request exceeds the reserved quantity, and otherwise
subtracts the request from `reserved_quantity`. -/
def releaseReservedStock (db : DB) (productId branchId : ℕ) (quantity : ℤ) :
    DB × Except Err Bool :=
  match findStockIn db.stock productId branchId with
  | none => (db, .error .stockRecordNotFound)
  | some currentStock =>
    if currentStock.reserved_quantity < quantity then
      (db, .error .overRelease)
    else
      ({ db with
          stock := setStockById db.stock currentStock.id
            (fun r => { r with
              reserved_quantity := currentStock.reserved_quantity - quantity }) },
        .ok true)

/-- Embedding of `adjustStock`: delegates to `updateStock` with an
`ADJUSTMENT` movement. -/
def adjustStock (db : DB) (productId branchId : ℕ) (newQuantity : ℤ) (userId : ℕ)
    (reason : String) : DB × Except Err StockRow :=
  updateStock db productId branchId newQuantity .ADJUSTMENT userId (some reason)

/-- An addon reference on a cart line item (`createTransactionInputSchema`). -/
structure CartAddon where
  addon_id : ℕ
  quantity : ℤ
deriving DecidableEq, Repr

/-- A cart line item (`createTransactionInputSchema.items`). -/
structure CartItem where
  product_id : ℕ
  product_variant_id : Option ℕ
  quantity : ℤ
  unit_price : ℚ
  discount_amount : ℚ
  notes : Option String
  addons : List CartAddon
deriving DecidableEq, Repr

/-- A payment entry of the cart (`createTransactionInputSchema.payments`). -/
structure PaymentInput where
  payment_method : String
  amount : ℚ
  reference_number : Option String
deriving DecidableEq, Repr

/-- The input of `createTransaction` (`CreateTransactionInput`). -/
structure CreateTransactionInput where
  customer_id : Option ℕ
  items : List CartItem
  discount_amount : ℚ
  tax_amount : ℚ
  payments : List PaymentInput
  notes : Option String
deriving DecidableEq, Repr

/-- Storage rounding of the monetary columns: every money field is persisted
into a `numeric(…, 2)` column, which rounds the incoming decimal value to two
fraction digits, halves away from zero.  The JavaScript side sends
`value.toString()` and reads the column back with `parseFloat`, so the value
a successful call returns and persists is the column's rounded value. -/
def round2 (x : ℚ) : ℚ :=
  if x < 0 then -((⌊-x * 100 + 1/2⌋ : ℤ) : ℚ) / 100
  else ((⌊x * 100 + 1/2⌋ : ℤ) : ℚ) / 100

/-- A monetary value representable at scale 2 (a whole number of cents) —
exactly the values the `numeric(…, 2)` columns store without rounding. -/
def isCents (x : ℚ) : Prop := ∃ n : ℤ, x = (n : ℚ) / 100

lemma round2_of_isCents (x : ℚ) (h : isCents x) : round2 x = x := by
  obtain ⟨n, rfl⟩ := h
  unfold round2
  have h100 : ((n : ℚ) / 100) * 100 = (n : ℚ) := by
    field_simp
  by_cases hneg : (n : ℚ) / 100 < 0
  · rw [if_pos hneg]
    have : -((n : ℚ) / 100) * 100 = ((-n : ℤ) : ℚ) := by
      push_cast
      field_simp
    rw [this, show ((-n : ℤ) : ℚ) + 1/2 = (1:ℚ)/2 + (-n : ℤ) from by ring,
      Int.floor_add_int]
    norm_num
  · rw [if_neg hneg, h100,
      show ((n : ℤ) : ℚ) + 1/2 = (1:ℚ)/2 + (n : ℤ) from by ring,
      Int.floor_add_int]
    norm_num

lemma isCents_zero : isCents 0 := ⟨0, by norm_num⟩

lemma isCents_add {x y : ℚ} (hx : isCents x) (hy : isCents y) : isCents (x + y) := by
  obtain ⟨a, rfl⟩ := hx
  obtain ⟨b, rfl⟩ := hy
  exact ⟨a + b, by push_cast; ring⟩

lemma isCents_sub {x y : ℚ} (hx : isCents x) (hy : isCents y) : isCents (x - y) := by
  obtain ⟨a, rfl⟩ := hx
  obtain ⟨b, rfl⟩ := hy
  exact ⟨a - b, by push_cast; ring⟩

lemma isCents_intMul (k : ℤ) {x : ℚ} (hx : isCents x) : isCents ((k : ℚ) * x) := by
  obtain ⟨a, rfl⟩ := hx
  exact ⟨k * a, by push_cast; ring⟩

lemma isCents_sum (l : List ℚ) (h : ∀ x ∈ l, isCents x) : isCents l.sum := by
  induction l with
  | nil => simpa using isCents_zero
  | cons x xs ih =>
    rw [List.sum_cons]
    exact isCents_add (h x (by simp)) (ih (fun y hy => h y (by simp [hy])))

/-- The customer-existence check of `createTransaction`; the source guards
with JavaScript truthiness, so a missing or zero `customer_id` skips the
lookup. -/
def validateCustomer (db : DB) (cid : Option ℕ) : Except Err Unit :=
  match cid with
  | some c =>
    if c ≠ 0 then
      (if db.customers.contains c then .ok () else .error .customerNotFound)
    else .ok ()
  | none => .ok ()

/-- One addon of the subtotal accumulation of `createTransaction`: checks
the addon exists and adds `quantity × price` at the addon's stored price. -/
def addonStep (db : DB) (a : ℚ) (addon : CartAddon) : Except Err ℚ :=
  match findAddon db addon.addon_id with
  | none => Except.error (Err.addonNotFound addon.addon_id)
  | some row => Except.ok (a + (addon.quantity : ℚ) * row.price)

/-- One item of the subtotal accumulation of `createTransaction`: checks the
item's product exists, adds `quantity × unit_price − discount_amount`, then
folds `addonStep` over the item's addons. -/
def accumItem (db : DB) (acc : ℚ) (item : CartItem) : Except Err ℚ :=
  if db.products.contains item.product_id then
    item.addons.foldlM (addonStep db)
      (acc + ((item.quantity : ℚ) * item.unit_price - item.discount_amount))
  else Except.error (Err.productNotFound item.product_id)

/-- The subtotal computation of `createTransaction` (validation loop over the
cart items, accumulating item totals and addon totals). -/
def computeSubtotal (db : DB) (items : List CartItem) : Except Err ℚ :=
  items.foldlM (accumItem db) 0

/-- The per-item body of the `db.transaction` block: inserts the
`transaction_items` row, inserts one `transaction_item_addons` row per addon
at the addon's stored price, then reserves stock for the item — failing when
no `(product_id, branch_id)` stock row exists or when the new reserved
quantity would exceed the on-hand quantity.  `insertAddonRows` is the addon
loop: one `transaction_item_addons` insert per addon, snapshotting the
addon's stored price (the source indexes the addon query result without an
emptiness check, so a missing addon row surfaces as a thrown error). -/
def insertAddonRows (itemRowId : ℕ) (db : DB) (addons : List CartAddon) :
    Except Err DB :=
  addons.foldlM
    (fun d addon =>
      match findAddon d addon.addon_id with
      | none => Except.error (Err.addonRowMissing addon.addon_id)
      | some row =>
        Except.ok { d with
          transactionItemAddons := d.transactionItemAddons ++
            [⟨itemRowId, addon.addon_id, addon.quantity, round2 row.price,
              round2 ((addon.quantity : ℚ) * row.price)⟩] })
    db

/-- The `transaction_items` row inserted for one cart item: the line total is
`quantity × unit_price − discount_amount`. -/
def mkItemRow (txnId : ℕ) (db : DB) (item : CartItem) : TransactionItemRow :=
  ⟨db.nextItemId, txnId, item.product_id, item.product_variant_id,
    item.quantity, round2 item.unit_price, round2 item.discount_amount,
    round2 ((item.quantity : ℚ) * item.unit_price - item.discount_amount), item.notes⟩

/-- Insert the `transaction_items` row for one cart item. -/
def insertItemRow (txnId : ℕ) (db : DB) (item : CartItem) : DB :=
  { db with
    transactionItems := db.transactionItems ++ [mkItemRow txnId db item],
    nextItemId := db.nextItemId + 1 }

/-- The `update stock set reserved_quantity = ...` write of the reservation
step: the new reserved quantity is computed from the previously selected row
`cs`. -/
def applyReservation (db : DB) (cs : StockRow) (q : ℤ) : DB :=
  { db with
    stock := setStockById db.stock cs.id
      (fun r => { r with reserved_quantity := cs.reserved_quantity + q }) }

def processOneItem (branchId txnId : ℕ) (db : DB) (item : CartItem) :
    Except Err DB := do
  let db1 := insertItemRow txnId db item
  let db2 ← insertAddonRows db.nextItemId db1 item.addons
  match findStockIn db2.stock item.product_id branchId with
  | some currentStock =>
    let newReservedQty := currentStock.reserved_quantity + item.quantity
    if newReservedQty > currentStock.quantity then
      Except.error (Err.insufficientStockForProduct item.product_id)
    else
      Except.ok (applyReservation db2 currentStock item.quantity)
  | none => Except.error (Err.noStockRecord item.product_id branchId)

/-- The item loop of the `db.transaction` block. -/
def processItems (branchId txnId : ℕ) (db : DB) (items : List CartItem) :
    Except Err DB :=
  items.foldlM (processOneItem branchId txnId) db

/-- The payment loop of the `db.transaction` block: one
`transaction_payments` insert per payment. -/
def insertPayments (db : DB) (payments : List PaymentInput) (txnId : ℕ) : DB :=
  payments.foldl
    (fun d p =>
      { d with transactionPayments := d.transactionPayments ++
          [⟨txnId, p.payment_method, round2 p.amount, p.reference_number⟩] })
    db

/-- The full `createTransaction` pipeline before the rollback wrapper:
customer validation, product/addon validation with subtotal computation,
grand-total computation, then the `db.transaction` block (transaction insert,
item/addon inserts, stock reservations, payment inserts).  The generated
transaction number (built from the clock and a random suffix in the source)
is taken as the argument `txnNumber`.  `mkTxnRow` is the inserted
`transactions` row: status PENDING, the computed subtotal, the cart-level
discount and tax, and the grand total `subtotal − discount + tax`. -/
def mkTxnRow (db : DB) (input : CreateTransactionInput) (userId branchId : ℕ)
    (txnNumber : String) (subtotal : ℚ) : TransactionRow :=
  ⟨db.nextTransactionId, txnNumber, branchId, input.customer_id, userId,
    round2 subtotal, round2 input.discount_amount, round2 input.tax_amount,
    round2 (subtotal - input.discount_amount + input.tax_amount), .PENDING, input.notes⟩

/-- Insert the `transactions` row. -/
def insertTxnRow (db : DB) (row : TransactionRow) : DB :=
  { db with
    transactions := db.transactions ++ [row],
    nextTransactionId := db.nextTransactionId + 1 }

def createTransactionE (db : DB) (input : CreateTransactionInput)
    (userId branchId : ℕ) (txnNumber : String) :
    Except Err (DB × TransactionRow) := do
  validateCustomer db input.customer_id
  let subtotal ← computeSubtotal db input.items
  let txnRow := mkTxnRow db input userId branchId txnNumber subtotal
  let db0 := insertTxnRow db txnRow
  let db1 ← processItems branchId txnRow.id db0 input.items
  let db2 := insertPayments db1 input.payments txnRow.id
  .ok (db2, txnRow)

/-- Embedding of `createTransaction`: the validation phase performs no
writes, and the multi-row write runs inside `db.transaction`, so a failure
anywhere leaves the store in its pre-state (the store rolls the unit back)
while a success installs the fully built post-state. -/
def createTransaction (db : DB) (input : CreateTransactionInput)
    (userId branchId : ℕ) (txnNumber : String) :
    DB × Except Err TransactionRow :=
  match createTransactionE db input userId branchId txnNumber with
  | .ok (db2, txn) => (db2, .ok txn)
  | .error e => (db, .error e)

/-- The `createTransactionInputSchema` checks applied at the RPC boundary:
integral positive item and addon quantities, positive unit prices and payment
amounts, and non-negative discount and tax amounts.  Integrality is inherent
to the embedding (quantities are integers). -/
def zodAccepts (input : CreateTransactionInput) : Prop :=
  (∀ it ∈ input.items,
      0 < it.quantity ∧ 0 < it.unit_price ∧ 0 ≤ it.discount_amount ∧
      ∀ a ∈ it.addons, 0 < a.quantity) ∧
  0 ≤ input.discount_amount ∧ 0 ≤ input.tax_amount ∧
  ∀ p ∈ input.payments, 0 < p.amount

instance (input : CreateTransactionInput) : Decidable (zodAccepts input) := by
  unfold zodAccepts
  infer_instance

/-- The `transactions.create` RPC route: the input schema runs first and a
cart it rejects never reaches the handler, so nothing is persisted for it. -/
def handleCreateTransaction (db : DB) (input : CreateTransactionInput)
    (userId branchId : ℕ) (txnNumber : String) :
    DB × Except Err TransactionRow :=
  if zodAccepts input then createTransaction db input userId branchId txnNumber
  else (db, .error .invalidInput)

/-- A single stock-ledger operation on one `(product_id, branch_id)` pair:
a movement via `updateStock`, a reservation via `reserveStock`, or a release
via `releaseReservedStock`. -/
inductive StockOp
  | movement (mt : MovementType) (q : ℤ) (uid : ℕ)
  | reserve (q : ℤ)
  | release (q : ℤ)
deriving DecidableEq, Repr

/-- The quantity argument of a stock-ledger operation. -/
def StockOp.qty : StockOp → ℤ
  | .movement _ q _ => q
  | .reserve q => q
  | .release q => q

/-- Run one stock-ledger operation against the store. -/
def applyOp (pid bid : ℕ) (db : DB) (op : StockOp) : DB × Except Err Unit :=
  match op with
  | .movement mt q uid =>
    let r := updateStock db pid bid q mt uid none
    (r.1, r.2.map (fun _ => ()))
  | .reserve q =>
    let r := reserveStock db pid bid q
    (r.1, r.2.map (fun _ => ()))
  | .release q =>
    let r := releaseReservedStock db pid bid q
    (r.1, r.2.map (fun _ => ()))

/-- Run a sequence of stock-ledger operations, keeping the state each
operation leaves behind (a failed operation leaves the store unchanged). -/
def applyOps (pid bid : ℕ) (db : DB) (ops : List StockOp) : DB :=
  ops.foldl (fun d op => (applyOp pid bid d op).1) db

/-- Both counted columns of a stock row are non-negative. -/
def stockNonneg (l : List StockRow) : Prop :=
  ∀ r ∈ l, 0 ≤ r.quantity ∧ 0 ≤ r.reserved_quantity

instance (l : List StockRow) : Decidable (stockNonneg l) := by
  unfold stockNonneg
  infer_instance

/-- The uniqueness constraints of the `stock` table: `id` is a primary key
and `(product_id, branch_id)` carries a unique index. -/
def StockWF (l : List StockRow) : Prop :=
  l.Pairwise (fun r s =>
    r.id ≠ s.id ∧ ¬(r.product_id = s.product_id ∧ r.branch_id = s.branch_id))

/-- Models the reservation step of `createTransaction`: inside the store
transaction the handler first selects the stock row and then issues an
update whose new `reserved_quantity` is computed in the application from the
selected value (`currentStock.reserved_quantity + item.quantity`).  The
select and the update are separate statements with no row lock or
conditional write, so under two concurrent calls the store admits the
interleaving in which both selects run before either update.  Given the
row's on-hand `quantity`, its initial reserved quantity `r0`, and the two
requested quantities, this returns whether each call passes its check and
the reserved quantity the row holds after both calls commit. -/
def naiveReservePair (quantity r0 qA qB : ℤ) : Bool × Bool × ℤ :=
  let readA := r0
  let readB := r0
  let okA := decide (readA + qA ≤ quantity)
  let s1 := if okA then readA + qA else r0
  let okB := decide (readB + qB ≤ quantity)
  let s2 := if okB then readB + qB else s1
  (okA, okB, s2)

/-- The same two reservation calls run one after the other (the second call's
select sees the first call's committed update), for comparison with
`naiveReservePair`. -/
def serializedReservePair (quantity r0 qA qB : ℤ) : Bool × Bool × ℤ :=
  let readA := r0
  let okA := decide (readA + qA ≤ quantity)
  let s1 := if okA then readA + qA else r0
  let readB := s1
  let okB := decide (readB + qB ≤ quantity)
  let s2 := if okB then readB + qB else s1
  (okA, okB, s2)

instance {ε α : Type} [DecidableEq ε] [DecidableEq α] : DecidableEq (Except ε α) :=
  fun x y =>
    match x, y with
    | .ok a, .ok b => decidable_of_iff (a = b) (by simp)
    | .error a, .error b => decidable_of_iff (a = b) (by simp)
    | .ok _, .error _ => isFalse (by simp)
    | .error _, .ok _ => isFalse (by simp)

/-- A store holding no rows at all. -/
def dbEmpty : DB := ⟨[], [], [], [], [], [], [], [], [], 1, 1, 1⟩

/-- The line total of a cart item: `quantity × unit_price − discount_amount`. -/
def cartItemTotal (item : CartItem) : ℚ :=
  (item.quantity : ℚ) * item.unit_price - item.discount_amount

/-- The addon total of a cart item at the store's addon prices: the sum over
its addons of `quantity × price`, reading each price from the addons table. -/
def addonsTotal (db : DB) (item : CartItem) : ℚ :=
  (item.addons.map
    (fun a => (a.quantity : ℚ) * ((findAddon db a.addon_id).elim 0 AddonRow.price))).sum

/-- The total quantity a cart requests of one product (summing over the line
items that reference it). -/
def cartQtyFor (items : List CartItem) (pid : ℕ) : ℤ :=
  (items.map (fun it => if it.product_id = pid then it.quantity else 0)).sum

/-- The effect a successful `createTransaction` has on one stock row:
rows of the transaction's branch gain the cart's requested quantity of their
product in `reserved_quantity`; all other rows, and every `quantity` column,
are untouched. -/
def reserveDelta (bid : ℕ) (items : List CartItem) (r : StockRow) : StockRow :=
  if r.branch_id = bid then
    { r with reserved_quantity := r.reserved_quantity + cartQtyFor items r.product_id }
  else r

/-- A store with product 5 on file and a stock row of 10 on hand for it at
branch 1, used to exhibit carts that pass validation but persist negative
totals. -/
def dbC8 : DB := { dbEmpty with products := [5], stock := [⟨1, 5, 1, 10, 0⟩] }

/-- A cart whose single item has quantity 1, unit price 1 and item discount 5,
so the item discount exceeds `quantity × unit_price`. -/
def inC8bad : CreateTransactionInput :=
  ⟨none, [⟨5, none, 1, 1, 5, none, []⟩], 0, 0, [], none⟩

lemma findStockIn_map (l : List StockRow) (pid bid : ℕ) (g : StockRow → StockRow)
    (hg : ∀ r, (g r).product_id = r.product_id ∧ (g r).branch_id = r.branch_id) :
    findStockIn (l.map g) pid bid = (findStockIn l pid bid).map g := by
  unfold findStockIn
  have hp : (fun r => r.product_id == pid && r.branch_id == bid) ∘ g
      = (fun r : StockRow => r.product_id == pid && r.branch_id == bid) := by
    funext r
    simp [Function.comp, (hg r).1, (hg r).2]
  rw [List.find?_map, hp]

lemma findStockIn_setStockById (l : List StockRow) (rid : ℕ) (f : StockRow → StockRow)
    (hf : ∀ r, (f r).product_id = r.product_id ∧ (f r).branch_id = r.branch_id)
    (pid bid : ℕ) :
    findStockIn (setStockById l rid f) pid bid
      = (findStockIn l pid bid).map (fun r => if r.id = rid then f r else r) := by
  apply findStockIn_map
  intro r
  by_cases h : r.id = rid <;> simp [h, (hf r).1, (hf r).2]

lemma findStockIn_eq (l : List StockRow) (pid bid : ℕ) (r : StockRow)
    (h : findStockIn l pid bid = some r) :
    r ∈ l ∧ r.product_id = pid ∧ r.branch_id = bid := by
  refine ⟨List.mem_of_find?_eq_some h, ?_⟩
  have := List.find?_some h
  simpa using this

/-- C3, counterexample: the operation sequence IN 10, reserve 8, OUT 5 on one
`(product, branch)` pair succeeds at every step, yet afterwards the stock row
holds on-hand quantity 5 with reserved quantity 8 — `updateStock` never
consults `reserved_quantity`, so `reserved_quantity ≤ quantity` is violated
by a successful OUT movement, refuting the claimed invariant. -/
theorem c3_counterexample :
    (applyOp 1 1 dbEmpty (.movement .IN 10 7)).2 = .ok () ∧
    (applyOp 1 1 (applyOps 1 1 dbEmpty [.movement .IN 10 7]) (.reserve 8)).2 = .ok () ∧
    (applyOp 1 1 (applyOps 1 1 dbEmpty [.movement .IN 10 7, .reserve 8])
        (.movement .OUT 5 7)).2 = .ok () ∧
    findStockIn
        (applyOps 1 1 dbEmpty
          [.movement .IN 10 7, .reserve 8, .movement .OUT 5 7]).stock 1 1
      = some ⟨1, 1, 1, 5, 8⟩ ∧
    ¬ ((5 : ℤ) ≥ 8) := by
  decide

/-- C4: forcing the failure the claim rules out.  With N = 2 and Q = 1
against a stock row holding exactly (N−1)×Q = 1 on hand and nothing
reserved, the interleaving in which both calls select the row before either
writes — admitted by the source, whose reservation is a plain select
followed by an update computed from the selected value, with no row lock,
isolation level, or conditional write — lets BOTH calls pass the check and
commit, where the claim requires exactly one failure; the row ends with
reserved quantity 1, silently losing one of the two reservations.  Running
the same two calls one after another gives the claimed outcome, isolating
the interleaving as the cause. -/
theorem c4_naive_reservation_overshoot :
    naiveReservePair 1 0 1 1 = (true, true, 1) ∧
    serializedReservePair 1 0 1 1 = (true, false, 1) := by
  decide

/-- C5, counterexample: an OUT movement of 10 against a pair with no stock
row does not fail — `updateStock` inserts a fresh row (whose quantity is 0
because the movement is not IN/ADJUSTMENT), returns it successfully, and
even appends a −10 movement record. -/
theorem c5_counterexample :
    (updateStock dbEmpty 1 1 10 .OUT 7 none).2 = .ok ⟨1, 1, 1, 0, 0⟩ ∧
    (updateStock dbEmpty 1 1 10 .OUT 7 none).1.stockMovements
      = [⟨1, 1, .OUT, -10, 7, none⟩] := by
  decide

/-- C8, counterexample: the cart `inC8bad` has an item discount (5) greater
than `quantity × unit_price` (1), yet it passes the input schema and
`createTransaction` persists it — the transaction row is written with
subtotal −4 and total −4, so neither the `item_discount ≤ quantity ×
unit_price` guard nor the non-negative grand-total guard exists in the
code. -/
theorem c8_counterexample :
    zodAccepts inC8bad ∧
    (handleCreateTransaction dbC8 inC8bad 7 1 "T").2
      = .ok ⟨1, "T", 1, none, 7, -4, 0, 0, -4, .PENDING, none⟩ ∧
    (handleCreateTransaction dbC8 inC8bad 7 1 "T").1.transactions
      = [⟨1, "T", 1, none, 7, -4, 0, 0, -4, .PENDING, none⟩] := by
  with_unfolding_all decide

/-- C6: `reserveStock` adds the requested quantity to `reserved_quantity`,
fails with the insufficient-available-stock error when
`reserved_quantity + quantity` would exceed the on-hand quantity, and fails
with the stock-record-not-found error when the pair has no stock row;
`releaseReservedStock` subtracts the requested quantity from
`reserved_quantity` and fails with the over-release error when the request
exceeds the current reserved quantity; every failure returns the store
unchanged. -/
theorem c6_reserve_release (db : DB) (pid bid : ℕ) (q : ℤ) :
    (findStockIn db.stock pid bid = none →
      reserveStock db pid bid q = (db, .error .stockRecordNotFound)) ∧
    (∀ row, findStockIn db.stock pid bid = some row →
      (row.quantity < row.reserved_quantity + q →
        reserveStock db pid bid q = (db, .error .insufficientAvailableStock)) ∧
      (row.reserved_quantity + q ≤ row.quantity →
        (reserveStock db pid bid q).2 = .ok true ∧
        findStockIn (reserveStock db pid bid q).1.stock pid bid
          = some { row with reserved_quantity := row.reserved_quantity + q }) ∧
      (row.reserved_quantity < q →
        releaseReservedStock db pid bid q = (db, .error .overRelease)) ∧
      (q ≤ row.reserved_quantity →
        (releaseReservedStock db pid bid q).2 = .ok true ∧
        findStockIn (releaseReservedStock db pid bid q).1.stock pid bid
          = some { row with reserved_quantity := row.reserved_quantity - q })) := by
  constructor
  · intro h
    simp [reserveStock, h]
  · intro row h
    refine ⟨?_, ?_, ?_, ?_⟩
    · intro hlt
      simp [reserveStock, h]
      omega
    · intro hle
      have hcond : ¬ (row.quantity - row.reserved_quantity < q) := by omega
      constructor
      · simp [reserveStock, h, hcond]
      · simp only [reserveStock, h, hcond, if_false]
        rw [findStockIn_setStockById _ _ _ (by intro r; constructor <;> rfl), h]
        simp
    · intro hlt
      simp [releaseReservedStock, h]
      omega
    · intro hle
      have hcond : ¬ (row.reserved_quantity < q) := by omega
      constructor
      · simp [releaseReservedStock, h, hcond]
      · simp only [releaseReservedStock, h, hcond, if_false]
        rw [findStockIn_setStockById _ _ _ (by intro r; constructor <;> rfl), h]
        simp

/-- A store with one stock row: product 3 at branch 1, 50 on hand, 40
reserved. -/
def dbC6 : DB := { dbEmpty with stock := [⟨1, 3, 1, 50, 40⟩] }

/-- C6, witness: on the 50-on-hand/40-reserved row, reserving 20 fails with
the insufficient-available-stock error leaving the store unchanged
(available = 10 < 20), reserving 10 succeeds raising reserved to 50,
releasing 41 fails with the over-release error, releasing 40 succeeds
dropping reserved to 0, and reserving against a pair with no stock row fails
with the stock-record-not-found error. -/
theorem c6_witness :
    reserveStock dbC6 3 1 20 = (dbC6, .error .insufficientAvailableStock) ∧
    (reserveStock dbC6 3 1 10).2 = .ok true ∧
    findStockIn (reserveStock dbC6 3 1 10).1.stock 3 1 = some ⟨1, 3, 1, 50, 50⟩ ∧
    releaseReservedStock dbC6 3 1 41 = (dbC6, .error .overRelease) ∧
    (releaseReservedStock dbC6 3 1 40).2 = .ok true ∧
    findStockIn (releaseReservedStock dbC6 3 1 40).1.stock 3 1 = some ⟨1, 3, 1, 50, 0⟩ ∧
    reserveStock dbEmpty 3 1 1 = (dbEmpty, .error .stockRecordNotFound) := by
  have h20 := (c6_reserve_release dbC6 3 1 20).2 ⟨1, 3, 1, 50, 40⟩ (by decide)
  have h10 := (c6_reserve_release dbC6 3 1 10).2 ⟨1, 3, 1, 50, 40⟩ (by decide)
  have h41 := (c6_reserve_release dbC6 3 1 41).2 ⟨1, 3, 1, 50, 40⟩ (by decide)
  have h40 := (c6_reserve_release dbC6 3 1 40).2 ⟨1, 3, 1, 50, 40⟩ (by decide)
  have hnone := (c6_reserve_release dbEmpty 3 1 1).1 (by decide)
  refine ⟨h20.1 (by decide), (h10.2.1 (by decide)).1, ?_,
          h41.2.2.1 (by decide), (h40.2.2.2 (by decide)).1, ?_, hnone⟩
  · exact (h10.2.1 (by decide)).2
  · exact (h40.2.2.2 (by decide)).2

lemma updateStock_ok_movements (db : DB) (pid bid : ℕ) (q : ℤ) (mt : MovementType)
    (uid : ℕ) (nt : Option String) (db2 : DB) (row : StockRow)
    (h : updateStock db pid bid q mt uid nt = (db2, .ok row)) :
    db2.stockMovements = db.stockMovements ++
      [⟨pid, bid, mt, if mt = .OUT then -q else q, uid, nt⟩] := by
  unfold updateStock at h
  cases hf : findStockIn db.stock pid bid with
  | none =>
    rw [hf] at h
    simp only [Prod.mk.injEq] at h
    rw [← h.1]
    rfl
  | some cs =>
    rw [hf] at h
    cases mt with
    | OUT =>
      by_cases hc : cs.quantity - q < 0
      · simp [hc] at h
      · simp only [hc, if_false] at h
        simp only [Prod.mk.injEq] at h
        rw [← h.1]
        rfl
    | IN =>
      simp only [Prod.mk.injEq] at h
      rw [← h.1]
      rfl
    | TRANSFER =>
      simp only [Prod.mk.injEq] at h
      rw [← h.1]
      rfl
    | ADJUSTMENT =>
      simp only [Prod.mk.injEq] at h
      rw [← h.1]
      rfl

/-- C5 (amended): an OUT movement against an existing stock row decreases the
on-hand quantity by the movement quantity, and fails with the insufficient-
stock error — leaving the store unchanged — when the result would be
negative; but an OUT against a pair with NO stock row does not fail: the
handler creates a row with quantity 0 (ignoring the OUT delta) and reports
success. -/
theorem c5_out_movement (db : DB) (pid bid : ℕ) (q : ℤ) (uid : ℕ) (nt : Option String) :
    (∀ row, findStockIn db.stock pid bid = some row →
      (row.quantity - q < 0 →
        updateStock db pid bid q .OUT uid nt = (db, .error .insufficientStock)) ∧
      (0 ≤ row.quantity - q →
        (updateStock db pid bid q .OUT uid nt).2
          = .ok { row with quantity := row.quantity - q } ∧
        findStockIn (updateStock db pid bid q .OUT uid nt).1.stock pid bid
          = some { row with quantity := row.quantity - q })) ∧
    (findStockIn db.stock pid bid = none →
      (updateStock db pid bid q .OUT uid nt).2 = .ok ⟨db.nextStockId, pid, bid, 0, 0⟩ ∧
      findStockIn (updateStock db pid bid q .OUT uid nt).1.stock pid bid
        = some ⟨db.nextStockId, pid, bid, 0, 0⟩) := by
  constructor
  · intro row h
    constructor
    · intro hneg
      simp [updateStock, h, hneg]
    · intro hpos
      have hcond : ¬ (row.quantity - q < 0) := by omega
      constructor
      · simp [updateStock, h, hcond]
      · simp only [updateStock, h, hcond, if_false, appendMovement]
        rw [findStockIn_setStockById _ _ _ (by intro r; constructor <;> rfl), h]
        simp
  · intro h
    constructor
    · simp [updateStock, h]
    · simp only [updateStock, h, appendMovement]
      unfold findStockIn
      rw [List.find?_append]
      have h0 : List.find? (fun r => r.product_id == pid && r.branch_id == bid) db.stock
          = none := h
      rw [h0]
      simp

/-- A store with one stock row: product 2 at branch 1 with 5 on hand. -/
def db5 : DB := { dbEmpty with stock := [⟨1, 2, 1, 5, 0⟩] }

/-- C5, witness: an OUT of 10 against 5 on hand fails with the
insufficient-stock error and the store — in particular the on-hand 5 — is
unchanged, while an OUT of 3 succeeds leaving 2 on hand. -/
theorem c5_witness :
    updateStock db5 2 1 10 .OUT 7 none = (db5, .error .insufficientStock) ∧
    findStockIn db5.stock 2 1 = some ⟨1, 2, 1, 5, 0⟩ ∧
    (updateStock db5 2 1 3 .OUT 7 none).2 = .ok ⟨1, 2, 1, 2, 0⟩ ∧
    findStockIn (updateStock db5 2 1 3 .OUT 7 none).1.stock 2 1 = some ⟨1, 2, 1, 2, 0⟩ := by
  have h10 := (c5_out_movement db5 2 1 10 7 none).1 ⟨1, 2, 1, 5, 0⟩ (by decide)
  have h3 := (c5_out_movement db5 2 1 3 7 none).1 ⟨1, 2, 1, 5, 0⟩ (by decide)
  exact ⟨h10.1 (by decide), by decide, (h3.2 (by decide)).1, (h3.2 (by decide)).2⟩

/-- C10: calling `updateStock` directly with a TRANSFER movement on an
existing stock row leaves the row — both its on-hand and its reserved
quantity — unchanged, yet still appends one movement record carrying the
positive quantity; on a pair with no stock row it does not fail but creates
a row with quantity 0. -/
theorem c10_transfer_direct (db : DB) (pid bid : ℕ) (q : ℤ) (uid : ℕ) (nt : Option String) :
    (∀ row, findStockIn db.stock pid bid = some row →
      (updateStock db pid bid q .TRANSFER uid nt).2 = .ok row ∧
      findStockIn (updateStock db pid bid q .TRANSFER uid nt).1.stock pid bid = some row ∧
      (updateStock db pid bid q .TRANSFER uid nt).1.stockMovements
        = db.stockMovements ++ [⟨pid, bid, .TRANSFER, q, uid, nt⟩]) ∧
    (findStockIn db.stock pid bid = none →
      (updateStock db pid bid q .TRANSFER uid nt).2 = .ok ⟨db.nextStockId, pid, bid, 0, 0⟩ ∧
      findStockIn (updateStock db pid bid q .TRANSFER uid nt).1.stock pid bid
        = some ⟨db.nextStockId, pid, bid, 0, 0⟩ ∧
      (updateStock db pid bid q .TRANSFER uid nt).1.stockMovements
        = db.stockMovements ++ [⟨pid, bid, .TRANSFER, q, uid, nt⟩]) := by
  constructor
  · intro row h
    refine ⟨?_, ?_, ?_⟩
    · simp [updateStock, h]
    · simp only [updateStock, h, appendMovement]
      rw [findStockIn_setStockById _ _ _ (by intro r; constructor <;> rfl), h]
      simp
    · simp [updateStock, h, appendMovement]
  · intro h
    refine ⟨?_, ?_, ?_⟩
    · simp [updateStock, h]
    · simp only [updateStock, h, appendMovement]
      unfold findStockIn
      rw [List.find?_append]
      have h0 : List.find? (fun r => r.product_id == pid && r.branch_id == bid) db.stock
          = none := h
      rw [h0]
      simp
    · simp [updateStock, h, appendMovement]

/-- A store with one stock row: product 4 at branch 2, 9 on hand, 3
reserved. -/
def dbC10 : DB := { dbEmpty with stock := [⟨1, 4, 2, 9, 3⟩] }

/-- C10, witness: a direct TRANSFER of 6 on the (9 on-hand, 3 reserved) row
succeeds, leaves the row exactly as it was, and logs one +6 TRANSFER
movement; on the empty store a direct TRANSFER creates a quantity-0 row. -/
theorem c10_witness :
    (updateStock dbC10 4 2 6 .TRANSFER 7 none).2 = .ok ⟨1, 4, 2, 9, 3⟩ ∧
    findStockIn (updateStock dbC10 4 2 6 .TRANSFER 7 none).1.stock 4 2
      = some ⟨1, 4, 2, 9, 3⟩ ∧
    (updateStock dbC10 4 2 6 .TRANSFER 7 none).1.stockMovements
      = [⟨4, 2, .TRANSFER, 6, 7, none⟩] ∧
    (updateStock dbEmpty 4 2 6 .TRANSFER 7 none).2 = .ok ⟨1, 4, 2, 0, 0⟩ := by
  have hex := (c10_transfer_direct dbC10 4 2 6 7 none).1 ⟨1, 4, 2, 9, 3⟩ (by decide)
  have habs := (c10_transfer_direct dbEmpty 4 2 6 7 none).2 (by decide)
  exact ⟨hex.1, hex.2.1, hex.2.2, habs.1⟩

/-- C7: every successful `updateStock` call appends exactly one movement
record whose quantity is the movement quantity negated for OUT and kept
positive otherwise, and a successful `transferStock` appends exactly two —
the −q OUT leg at the source branch followed by the +q IN leg at the
destination branch. -/
theorem c7_movement_log (db : DB) (pid : ℕ) (q : ℤ) (uid : ℕ) :
    (∀ bid mt nt db2 row, updateStock db pid bid q mt uid nt = (db2, .ok row) →
      db2.stockMovements = db.stockMovements ++
        [⟨pid, bid, mt, if mt = .OUT then -q else q, uid, nt⟩]) ∧
    (∀ fromB toB db2, transferStock db pid fromB toB q uid = (db2, .ok true) →
      db2.stockMovements = db.stockMovements ++
        [⟨pid, fromB, .OUT, -q, uid, some ("Transfer to branch " ++ toString toB)⟩,
         ⟨pid, toB, .IN, q, uid, some ("Transfer from branch " ++ toString fromB)⟩]) := by
  constructor
  · intro bid mt nt db2 row h
    exact updateStock_ok_movements db pid bid q mt uid nt db2 row h
  · intro fromB toB db2 h
    unfold transferStock at h
    cases hf : findStockIn db.stock pid fromB with
    | none => rw [hf] at h; simp at h
    | some src =>
      rw [hf] at h
      by_cases hlt : src.quantity < q
      · simp [hlt] at h
      · simp only [hlt, if_false] at h
        cases h1 : (updateStock db pid fromB q .OUT uid
            (some ("Transfer to branch " ++ toString toB))).2 with
        | error e => rw [h1] at h; simp at h
        | ok w1 =>
          rw [h1] at h
          cases h2 : (updateStock (updateStock db pid fromB q .OUT uid
              (some ("Transfer to branch " ++ toString toB))).1 pid toB q .IN uid
              (some ("Transfer from branch " ++ toString fromB))).2 with
          | error e => rw [h2] at h; simp at h
          | ok w2 =>
            rw [h2] at h
            simp only [Prod.mk.injEq] at h
            have e1 := updateStock_ok_movements db pid fromB q .OUT uid
              (some ("Transfer to branch " ++ toString toB))
              (updateStock db pid fromB q .OUT uid
                (some ("Transfer to branch " ++ toString toB))).1 w1
              (by rw [← h1])
            have e2 := updateStock_ok_movements
              (updateStock db pid fromB q .OUT uid
                (some ("Transfer to branch " ++ toString toB))).1 pid toB q .IN uid
              (some ("Transfer from branch " ++ toString fromB))
              (updateStock (updateStock db pid fromB q .OUT uid
                (some ("Transfer to branch " ++ toString toB))).1 pid toB q .IN uid
                (some ("Transfer from branch " ++ toString fromB))).1 w2
              (by rw [← h2])
            rw [← h.1, e2, e1]
            simp

/-- A store with one stock row: product 3 at branch 1 with 50 on hand, and no
row yet at branch 2. -/
def dbT : DB := { dbEmpty with stock := [⟨1, 3, 1, 50, 0⟩], nextStockId := 2 }

/-- C7, witness: transferring 20 units of product 3 from branch 1 (50 on
hand) to branch 2 (no row) succeeds, leaves the source at 30 and the
destination at 20, and writes exactly two movement records with quantities
−20 and +20. -/
theorem c7_witness :
    (transferStock dbT 3 1 2 20 7).2 = .ok true ∧
    findStockIn dbT.stock 3 1 = some ⟨1, 3, 1, 50, 0⟩ ∧
    findStockIn dbT.stock 3 2 = none ∧
    findStockIn (transferStock dbT 3 1 2 20 7).1.stock 3 1 = some ⟨1, 3, 1, 30, 0⟩ ∧
    findStockIn (transferStock dbT 3 1 2 20 7).1.stock 3 2 = some ⟨2, 3, 2, 20, 0⟩ ∧
    (transferStock dbT 3 1 2 20 7).1.stockMovements
      = [⟨3, 1, .OUT, -20, 7, some ("Transfer to branch " ++ toString 2)⟩,
         ⟨3, 2, .IN, 20, 7, some ("Transfer from branch " ++ toString 1)⟩] := by
  refine ⟨by decide, by decide, by decide, by decide, by decide, ?_⟩
  have h := (c7_movement_log dbT 3 20 7).2 1 2 (transferStock dbT 3 1 2 20 7).1 (by decide)
  simpa using h

lemma stockNonneg_set (l : List StockRow) (rid : ℕ) (f : StockRow → StockRow)
    (h : stockNonneg l)
    (hf : ∀ r ∈ l, 0 ≤ (f r).quantity ∧ 0 ≤ (f r).reserved_quantity) :
    stockNonneg (setStockById l rid f) := by
  intro r hr
  unfold setStockById at hr
  rcases List.mem_map.1 hr with ⟨a, ha, rfl⟩
  by_cases hid : a.id = rid
  · simpa [hid] using hf a ha
  · simpa [hid] using h a ha

lemma updateStock_stockNonneg (db : DB) (pid bid : ℕ) (q : ℤ) (mt : MovementType)
    (uid : ℕ) (nt : Option String) (hq : 0 ≤ q) (h : stockNonneg db.stock) :
    stockNonneg ((updateStock db pid bid q mt uid nt).1).stock := by
  cases hf : findStockIn db.stock pid bid with
  | none =>
    simp only [updateStock, hf, appendMovement]
    intro r hr
    rcases List.mem_append.1 hr with h1 | h1
    · exact h r h1
    · rcases List.mem_singleton.1 h1 with rfl
      cases mt <;> constructor <;> simp <;> omega
  | some cs =>
    have hcs := h cs (List.mem_of_find?_eq_some hf)
    cases mt with
    | IN =>
      simp only [updateStock, hf, appendMovement]
      refine stockNonneg_set _ _ _ h ?_
      intro r hr
      exact ⟨by simp; omega, by simpa using (h r hr).2⟩
    | OUT =>
      by_cases hc : cs.quantity - q < 0
      · simpa [updateStock, hf, hc] using h
      · simp only [updateStock, hf, hc, if_false, appendMovement]
        refine stockNonneg_set _ _ _ h ?_
        intro r hr
        exact ⟨by simp; omega, by simpa using (h r hr).2⟩
    | ADJUSTMENT =>
      simp only [updateStock, hf, appendMovement]
      refine stockNonneg_set _ _ _ h ?_
      intro r hr
      exact ⟨by simpa using hq, by simpa using (h r hr).2⟩
    | TRANSFER =>
      simp only [updateStock, hf, appendMovement]
      refine stockNonneg_set _ _ _ h ?_
      intro r hr
      exact ⟨by simpa using hcs.1, by simpa using (h r hr).2⟩

lemma reserveStock_stockNonneg (db : DB) (pid bid : ℕ) (q : ℤ)
    (hq : 0 ≤ q) (h : stockNonneg db.stock) :
    stockNonneg ((reserveStock db pid bid q).1).stock := by
  cases hf : findStockIn db.stock pid bid with
  | none => simpa [reserveStock, hf] using h
  | some cs =>
    have hcs := h cs (List.mem_of_find?_eq_some hf)
    by_cases hc : cs.quantity - cs.reserved_quantity < q
    · simpa [reserveStock, hf, hc] using h
    · simp only [reserveStock, hf, hc, if_false]
      refine stockNonneg_set _ _ _ h ?_
      intro r hr
      exact ⟨by simpa using (h r hr).1, by simp; omega⟩

lemma releaseReservedStock_stockNonneg (db : DB) (pid bid : ℕ) (q : ℤ)
    (h : stockNonneg db.stock) :
    stockNonneg ((releaseReservedStock db pid bid q).1).stock := by
  cases hf : findStockIn db.stock pid bid with
  | none => simpa [releaseReservedStock, hf] using h
  | some cs =>
    by_cases hc : cs.reserved_quantity < q
    · simpa [releaseReservedStock, hf, hc] using h
    · simp only [releaseReservedStock, hf, hc, if_false]
      refine stockNonneg_set _ _ _ h ?_
      intro r hr
      exact ⟨by simpa using (h r hr).1, by simp; omega⟩

lemma applyOp_stockNonneg (pid bid : ℕ) (db : DB) (op : StockOp)
    (hq : 0 ≤ op.qty) (h : stockNonneg db.stock) :
    stockNonneg ((applyOp pid bid db op).1).stock := by
  cases op with
  | movement mt q uid =>
    exact updateStock_stockNonneg db pid bid q mt uid none (by simpa using hq) h
  | reserve q =>
    exact reserveStock_stockNonneg db pid bid q (by simpa using hq) h
  | release q =>
    exact releaseReservedStock_stockNonneg db pid bid q h

lemma applyOps_stockNonneg (pid bid : ℕ) (ops : List StockOp) (db : DB)
    (hops : ∀ op ∈ ops, 0 ≤ op.qty) (h : stockNonneg db.stock) :
    stockNonneg (applyOps pid bid db ops).stock := by
  induction ops generalizing db with
  | nil => simpa [applyOps] using h
  | cons op rest ih =>
    have h1 := applyOp_stockNonneg pid bid db op (hops op (by simp)) h
    exact ih ((applyOp pid bid db op).1) (fun o ho => hops o (by simp [ho])) h1

lemma updateStock_error_frame (db : DB) (pid bid : ℕ) (q : ℤ) (mt : MovementType)
    (uid : ℕ) (nt : Option String) (e : Err)
    (h : (updateStock db pid bid q mt uid nt).2 = .error e) :
    (updateStock db pid bid q mt uid nt).1 = db := by
  cases hf : findStockIn db.stock pid bid with
  | none => simp [updateStock, hf] at h
  | some cs =>
    cases mt with
    | IN => simp [updateStock, hf] at h
    | ADJUSTMENT => simp [updateStock, hf] at h
    | TRANSFER => simp [updateStock, hf] at h
    | OUT =>
      by_cases hc : cs.quantity - q < 0
      · simp [updateStock, hf, hc]
      · simp [updateStock, hf, hc] at h

lemma applyOp_error_frame (pid bid : ℕ) (db : DB) (op : StockOp) (e : Err)
    (h : (applyOp pid bid db op).2 = .error e) :
    (applyOp pid bid db op).1 = db := by
  cases op with
  | movement mt q uid =>
    simp only [applyOp] at h ⊢
    cases h2 : (updateStock db pid bid q mt uid none).2 with
    | error e2 => exact updateStock_error_frame db pid bid q mt uid none e2 h2
    | ok w => rw [h2] at h; simp [Except.map] at h
  | reserve q =>
    simp only [applyOp] at h ⊢
    cases hf : findStockIn db.stock pid bid with
    | none => simp [reserveStock, hf]
    | some cs =>
      by_cases hc : cs.quantity - cs.reserved_quantity < q
      · simp [reserveStock, hf, hc]
      · simp [reserveStock, hf, hc, Except.map] at h
  | release q =>
    simp only [applyOp] at h ⊢
    cases hf : findStockIn db.stock pid bid with
    | none => simp [releaseReservedStock, hf]
    | some cs =>
      by_cases hc : cs.reserved_quantity < q
      · simp [releaseReservedStock, hf, hc]
      · simp [releaseReservedStock, hf, hc, Except.map] at h

/-- C3 (amended): along any sequence of movement, reserve and release
operations with non-negative quantities, `0 ≤ quantity` and
`0 ≤ reserved_quantity` hold for every stock row after every operation, and
any operation that fails leaves the store unchanged; but
`reserved_quantity ≤ quantity` is NOT an invariant — `updateStock` never
reads `reserved_quantity`, so a successful OUT or ADJUSTMENT movement can
drive the on-hand quantity below the reserved quantity
(see the counterexample). -/
theorem c3_invariant (pid bid : ℕ) (db : DB) (ops : List StockOp)
    (hops : ∀ op ∈ ops, 0 ≤ op.qty) (hdb : stockNonneg db.stock) :
    (∀ pre suf, ops = pre ++ suf → stockNonneg (applyOps pid bid db pre).stock) ∧
    (∀ d op e, (applyOp pid bid d op).2 = .error e → (applyOp pid bid d op).1 = d) := by
  constructor
  · intro pre suf hps
    refine applyOps_stockNonneg pid bid pre db ?_ hdb
    intro op ho
    exact hops op (by rw [hps]; exact List.mem_append_left _ ho)
  · intro d op e h
    exact applyOp_error_frame pid bid d op e h

/-- C3, witness: the non-negativity invariant holds after the concrete
prefix IN 10 then reserve 8, and the failing reserve-20 on the 50/40 row
leaves the store unchanged. -/
theorem c3_witness :
    stockNonneg (applyOps 1 1 dbEmpty [.movement .IN 10 7, .reserve 8]).stock ∧
    (applyOp 3 1 dbC6 (.reserve 20)).2 = .error .insufficientAvailableStock ∧
    (applyOp 3 1 dbC6 (.reserve 20)).1 = dbC6 := by
  have h := c3_invariant 1 1 dbEmpty [.movement .IN 10 7, .reserve 8]
    (by decide) (by decide)
  refine ⟨h.1 [.movement .IN 10 7, .reserve 8] [] (by simp), by decide, ?_⟩
  exact (c3_invariant 3 1 dbC6 [] (by decide) (by decide)).2 dbC6 (.reserve 20)
    .insufficientAvailableStock (by decide)

/-- C8 (amended): the input schema rejects — before the handler runs, so
nothing is persisted — any cart containing an item with non-positive
quantity, non-positive unit price (so in particular a negative one), or
negative item discount, any addon reference with non-positive quantity, a
negative cart-level discount or tax, or a payment with non-positive amount;
but no guard compares the item discount against `quantity × unit_price` and
no guard rejects a negative grand total — carts violating only those
conditions are accepted and persisted (see the counterexample). -/
theorem c8_validation (db : DB) (input : CreateTransactionInput)
    (userId branchId : ℕ) (txnNumber : String)
    (h : (∃ it ∈ input.items,
            it.quantity ≤ 0 ∨ it.unit_price ≤ 0 ∨ it.discount_amount < 0 ∨
            ∃ a ∈ it.addons, a.quantity ≤ 0) ∨
         input.discount_amount < 0 ∨ input.tax_amount < 0 ∨
         ∃ p ∈ input.payments, p.amount ≤ 0) :
    handleCreateTransaction db input userId branchId txnNumber
      = (db, .error .invalidInput) := by
  unfold handleCreateTransaction
  rw [if_neg]
  intro hz
  obtain ⟨hitems, hdisc, htax, hpay⟩ := hz
  rcases h with ⟨it, hit, hbad⟩ | hd | ht | ⟨p, hp, hpa⟩
  · obtain ⟨h1, h2, h3, h4⟩ := hitems it hit
    rcases hbad with hb | hb | hb | ⟨a, ha, hb⟩
    · omega
    · linarith
    · linarith
    · have := h4 a ha
      omega
  · linarith
  · linarith
  · have := hpay p hp
    linarith

/-- A cart whose single item has quantity 0. -/
def inC8neg : CreateTransactionInput :=
  ⟨none, [⟨5, none, 0, 1, 0, none, []⟩], 0, 0, [], none⟩

/-- A cart whose single item carries an addon reference with quantity 0. -/
def inC8addon : CreateTransactionInput :=
  ⟨none, [⟨5, none, 1, 1, 0, none, [⟨9, 0⟩]⟩], 0, 0, [], none⟩

/-- A cart with a negative cart-level tax amount. -/
def inC8tax : CreateTransactionInput := ⟨none, [], 0, -1, [], none⟩

/-- A cart with a zero-amount payment. -/
def inC8pay : CreateTransactionInput :=
  ⟨none, [], 0, 0, [⟨"CASH", 0, none⟩], none⟩

/-- C8, witness: the zero-quantity cart, the zero-quantity-addon cart, the
negative-tax cart and the zero-payment cart are each rejected with the
invalid-input error before any persistence, leaving the store unchanged. -/
theorem c8_witness :
    handleCreateTransaction dbC8 inC8neg 7 1 "T" = (dbC8, .error .invalidInput) ∧
    handleCreateTransaction dbC8 inC8addon 7 1 "T" = (dbC8, .error .invalidInput) ∧
    handleCreateTransaction dbC8 inC8tax 7 1 "T" = (dbC8, .error .invalidInput) ∧
    handleCreateTransaction dbC8 inC8pay 7 1 "T" = (dbC8, .error .invalidInput) :=
  ⟨c8_validation dbC8 inC8neg 7 1 "T"
      (Or.inl ⟨⟨5, none, 0, 1, 0, none, []⟩, by decide, Or.inl (by decide)⟩),
   c8_validation dbC8 inC8addon 7 1 "T"
      (Or.inl ⟨⟨5, none, 1, 1, 0, none, [⟨9, 0⟩]⟩, by decide,
        Or.inr (Or.inr (Or.inr ⟨⟨9, 0⟩, by decide, by decide⟩))⟩),
   c8_validation dbC8 inC8tax 7 1 "T"
      (Or.inr (Or.inr (Or.inl (by with_unfolding_all decide)))),
   c8_validation dbC8 inC8pay 7 1 "T"
      (Or.inr (Or.inr (Or.inr ⟨⟨"CASH", 0, none⟩, by decide,
        by with_unfolding_all decide⟩)))⟩

/-- C1: whenever `createTransaction` fails — a missing customer, product or
addon, a missing stock row for some item's `(product_id, branch_id)`, or a
reservation that would exceed the on-hand quantity — the post-state of the
store equals the pre-state: no transaction row, no item row, no addon row,
no payment row and no change to any stock row is persisted.  The validation
phase performs no writes, and every write runs inside the `db.transaction`
unit, which the store rolls back on failure. -/
theorem c1_atomic_rollback (db : DB) (input : CreateTransactionInput)
    (userId branchId : ℕ) (txnNumber : String) (e : Err)
    (h : (createTransaction db input userId branchId txnNumber).2 = .error e) :
    (createTransaction db input userId branchId txnNumber).1 = db ∧
    (createTransaction db input userId branchId txnNumber).1.transactions
      = db.transactions ∧
    (createTransaction db input userId branchId txnNumber).1.transactionItems
      = db.transactionItems ∧
    (createTransaction db input userId branchId txnNumber).1.transactionItemAddons
      = db.transactionItemAddons ∧
    (createTransaction db input userId branchId txnNumber).1.transactionPayments
      = db.transactionPayments ∧
    (createTransaction db input userId branchId txnNumber).1.stock = db.stock := by
  unfold createTransaction at h ⊢
  cases hE : createTransactionE db input userId branchId txnNumber with
  | ok v => rw [hE] at h; simp at h
  | error e2 => exact ⟨rfl, rfl, rfl, rfl, rfl, rfl⟩

/-- A store that knows product 5 but holds no stock row for it. -/
def dbC1 : DB := { dbEmpty with products := [5] }

/-- A valid one-item cart for product 5 with one cash payment. -/
def inC1 : CreateTransactionInput :=
  ⟨none, [⟨5, none, 1, 1, 0, none, []⟩], 0, 0, [⟨"CASH", 1, none⟩], none⟩

/-- C1, witness: the cart passes validation but fails inside the atomic unit
(no stock row exists for product 5 at branch 1, after the transaction and
item rows were already inserted in the unit), and the store afterwards
equals the store before. -/
theorem c1_witness :
    (createTransaction dbC1 inC1 7 1 "T").2 = .error (.noStockRecord 5 1) ∧
    (createTransaction dbC1 inC1 7 1 "T").1 = dbC1 := by
  constructor
  · with_unfolding_all decide
  · exact (c1_atomic_rollback dbC1 inC1 7 1 "T" (.noStockRecord 5 1)
      (by with_unfolding_all decide)).1

lemma exbind_ok {α β : Type} (a : α) (f : α → Except Err β) :
    (Except.ok a >>= f) = f a := rfl

lemma exbind_error {α β : Type} (e : Err) (f : α → Except Err β) :
    ((Except.error e : Except Err α) >>= f) = Except.error e := rfl

lemma sum_map_add {α : Type} (l : List α) (f g : α → ℚ) :
    (l.map (fun x => f x + g x)).sum = (l.map f).sum + (l.map g).sum := by
  induction l with
  | nil => simp
  | cons x xs ih =>
    simp only [List.map_cons, List.sum_cons, ih]
    ring

lemma addonStep_fold_ok (db : DB) (addons : List CartAddon) (a0 v : ℚ)
    (h : addons.foldlM (addonStep db) a0 = .ok v) :
    v = a0 + (addons.map
      (fun ad => (ad.quantity : ℚ) * ((findAddon db ad.addon_id).elim 0 AddonRow.price))).sum := by
  induction addons generalizing a0 with
  | nil =>
    simp only [List.foldlM_nil] at h
    cases h
    simp
  | cons ad rest ih =>
    rw [List.foldlM_cons] at h
    cases hf : findAddon db ad.addon_id with
    | none =>
      rw [show addonStep db a0 ad = .error (Err.addonNotFound ad.addon_id) from by
          simp [addonStep, hf], exbind_error] at h
      exact absurd h (by simp)
    | some row =>
      rw [show addonStep db a0 ad = .ok (a0 + (ad.quantity : ℚ) * row.price) from by
          simp [addonStep, hf], exbind_ok] at h
      rw [ih _ h]
      simp only [List.map_cons, List.sum_cons, hf, Option.elim]
      ring

lemma accumItem_ok (db : DB) (acc v : ℚ) (item : CartItem)
    (h : accumItem db acc item = .ok v) :
    v = acc + (cartItemTotal item + addonsTotal db item) := by
  unfold accumItem at h
  by_cases hp : db.products.contains item.product_id
  · rw [if_pos hp] at h
    rw [addonStep_fold_ok db item.addons _ _ h]
    unfold cartItemTotal addonsTotal
    ring
  · rw [if_neg hp] at h
    exact absurd h (by simp)

lemma computeSubtotal_fold_ok (db : DB) (items : List CartItem) (acc v : ℚ)
    (h : items.foldlM (accumItem db) acc = .ok v) :
    v = acc + (items.map (fun it => cartItemTotal it + addonsTotal db it)).sum := by
  induction items generalizing acc with
  | nil =>
    simp only [List.foldlM_nil] at h
    cases h
    simp
  | cons it rest ih =>
    rw [List.foldlM_cons] at h
    cases ha : accumItem db acc it with
    | error e =>
      rw [ha, exbind_error] at h
      exact absurd h (by simp)
    | ok w =>
      rw [ha, exbind_ok] at h
      rw [ih _ h, accumItem_ok db acc w it ha]
      simp only [List.map_cons, List.sum_cons]
      ring

lemma computeSubtotal_ok (db : DB) (items : List CartItem) (v : ℚ)
    (h : computeSubtotal db items = .ok v) :
    v = (items.map cartItemTotal).sum + (items.map (addonsTotal db)).sum := by
  have h1 := computeSubtotal_fold_ok db items 0 v h
  rw [h1, sum_map_add]
  simp

lemma exbind_ok_inv {α β : Type} (m : Except Err α) (f : α → Except Err β) (b : β)
    (h : (m >>= f) = .ok b) : ∃ a, m = .ok a ∧ f a = .ok b := by
  cases m with
  | error e => rw [exbind_error] at h; exact absurd h (by simp)
  | ok a => exact ⟨a, rfl, h⟩

lemma insertPayments_frame (ps : List PaymentInput) (db : DB) (i : ℕ) :
    (insertPayments db ps i).stock = db.stock ∧
    (insertPayments db ps i).transactions = db.transactions := by
  induction ps generalizing db with
  | nil => exact ⟨rfl, rfl⟩
  | cons p rest ih =>
    simp only [insertPayments, List.foldl_cons]
    exact ih _

lemma insertAddonRows_frame (i : ℕ) (addons : List CartAddon) (db db' : DB)
    (h : insertAddonRows i db addons = .ok db') :
    db'.stock = db.stock ∧ db'.transactions = db.transactions := by
  induction addons generalizing db with
  | nil =>
    simp only [insertAddonRows, List.foldlM_nil] at h
    cases h
    exact ⟨rfl, rfl⟩
  | cons ad rest ih =>
    simp only [insertAddonRows, List.foldlM_cons] at h
    obtain ⟨d1, h1, h2⟩ := exbind_ok_inv _ _ _ h
    cases hf : findAddon db ad.addon_id with
    | none => simp [hf] at h1
    | some row =>
      simp only [hf, Except.ok.injEq] at h1
      have := ih d1 h2
      rw [this.1, this.2, ← h1]
      exact ⟨rfl, rfl⟩

lemma processOneItem_ok_inv (branchId txnId : ℕ) (db db' : DB) (item : CartItem)
    (h : processOneItem branchId txnId db item = .ok db') :
    ∃ db2 cs,
      insertAddonRows db.nextItemId (insertItemRow txnId db item) item.addons = .ok db2 ∧
      findStockIn db2.stock item.product_id branchId = some cs ∧
      cs.reserved_quantity + item.quantity ≤ cs.quantity ∧
      db' = applyReservation db2 cs item.quantity := by
  unfold processOneItem at h
  obtain ⟨db2, hA, h⟩ := exbind_ok_inv _ _ _ h
  cases hS : findStockIn db2.stock item.product_id branchId with
  | none => simp [hS] at h
  | some cs =>
    simp only [hS] at h
    by_cases hq : cs.reserved_quantity + item.quantity > cs.quantity
    · simp [hq] at h
    · rw [if_neg hq] at h
      simp only [Except.ok.injEq] at h
      exact ⟨db2, cs, hA, hS, by omega, h.symm⟩

lemma setStockById_eq_map (l : List StockRow) (cs : StockRow) (pid bid : ℕ) (q : ℤ)
    (hwf : StockWF l) (hfind : findStockIn l pid bid = some cs) :
    setStockById l cs.id (fun r => { r with reserved_quantity := cs.reserved_quantity + q })
      = l.map (fun r => if r.product_id = pid ∧ r.branch_id = bid then
          { r with reserved_quantity := r.reserved_quantity + q } else r) := by
  obtain ⟨hmem, hpid, hbid⟩ := findStockIn_eq l pid bid cs hfind
  have hsym : Symmetric (fun r s : StockRow =>
      r.id ≠ s.id ∧ ¬(r.product_id = s.product_id ∧ r.branch_id = s.branch_id)) := by
    intro a b hab
    exact ⟨hab.1.symm, fun hc => hab.2 ⟨hc.1.symm, hc.2.symm⟩⟩
  unfold setStockById
  apply List.map_congr_left
  intro a ha
  by_cases heq : a = cs
  · subst heq
    rw [if_pos rfl, if_pos ⟨hpid, hbid⟩]
  · have hR := (hwf.forall hsym) ha hmem heq
    rw [if_neg hR.1, if_neg (fun hc => hR.2 ⟨by rw [hc.1, hpid], by rw [hc.2, hbid]⟩)]

lemma StockWF_map (l : List StockRow) (g : StockRow → StockRow)
    (hg : ∀ r, (g r).id = r.id ∧ (g r).product_id = r.product_id ∧
      (g r).branch_id = r.branch_id)
    (h : StockWF l) : StockWF (l.map g) := by
  unfold StockWF at *
  rw [List.pairwise_map]
  refine h.imp ?_
  intro a b hab
  rw [(hg a).1, (hg b).1, (hg a).2.1, (hg b).2.1, (hg a).2.2, (hg b).2.2]
  exact hab

lemma cartQtyFor_cons (it : CartItem) (rest : List CartItem) (pid : ℕ) :
    cartQtyFor (it :: rest) pid
      = (if it.product_id = pid then it.quantity else 0) + cartQtyFor rest pid := by
  simp [cartQtyFor]

lemma processOneItem_stock (branchId txnId : ℕ) (db db' : DB) (item : CartItem)
    (hwf : StockWF db.stock)
    (h : processOneItem branchId txnId db item = .ok db') :
    db'.stock = db.stock.map (fun r =>
      if r.product_id = item.product_id ∧ r.branch_id = branchId then
        { r with reserved_quantity := r.reserved_quantity + item.quantity } else r) ∧
    db'.transactions = db.transactions := by
  obtain ⟨db2, cs, hA, hS, hle, hdb'⟩ := processOneItem_ok_inv branchId txnId db db' item h
  obtain ⟨hst, htr⟩ := insertAddonRows_frame _ _ _ _ hA
  subst hdb'
  constructor
  · show setStockById db2.stock cs.id _ = _
    rw [hst] at hS ⊢
    exact setStockById_eq_map db.stock cs item.product_id branchId item.quantity hwf hS
  · show db2.transactions = db.transactions
    exact htr

lemma processItems_stock (branchId txnId : ℕ) (items : List CartItem) (db db' : DB)
    (hwf : StockWF db.stock)
    (h : processItems branchId txnId db items = .ok db') :
    db'.stock = db.stock.map (fun r =>
      if r.branch_id = branchId then
        { r with reserved_quantity := r.reserved_quantity + cartQtyFor items r.product_id }
      else r) ∧
    db'.transactions = db.transactions := by
  induction items generalizing db with
  | nil =>
    simp only [processItems, List.foldlM_nil] at h
    cases h
    constructor
    · have : (fun r : StockRow => if r.branch_id = branchId then
          { r with reserved_quantity := r.reserved_quantity + cartQtyFor [] r.product_id }
          else r) = fun r => r := by
        funext r
        simp [cartQtyFor]
      rw [this, List.map_id']
    · rfl
  | cons it rest ih =>
    simp only [processItems, List.foldlM_cons] at h
    obtain ⟨dbi, h1, h2⟩ := exbind_ok_inv _ _ _ h
    obtain ⟨hs1, ht1⟩ := processOneItem_stock branchId txnId db dbi it hwf h1
    have hg1 : ∀ r : StockRow,
        ((fun r => if r.product_id = it.product_id ∧ r.branch_id = branchId then
          { r with reserved_quantity := r.reserved_quantity + it.quantity } else r) r).id = r.id ∧
        ((fun r => if r.product_id = it.product_id ∧ r.branch_id = branchId then
          { r with reserved_quantity := r.reserved_quantity + it.quantity } else r) r).product_id
          = r.product_id ∧
        ((fun r => if r.product_id = it.product_id ∧ r.branch_id = branchId then
          { r with reserved_quantity := r.reserved_quantity + it.quantity } else r) r).branch_id
          = r.branch_id := by
      intro r
      by_cases hc : r.product_id = it.product_id ∧ r.branch_id = branchId <;>
        simp [hc]
    have hwf1 : StockWF dbi.stock := by
      rw [hs1]
      exact StockWF_map db.stock _ hg1 hwf
    obtain ⟨hs2, ht2⟩ := ih dbi hwf1 h2
    refine ⟨?_, by rw [ht2, ht1]⟩
    rw [hs2, hs1, List.map_map]
    apply List.map_congr_left
    intro a ha
    simp only [Function.comp]
    by_cases hb : a.branch_id = branchId
    · by_cases hp : a.product_id = it.product_id
      · simp [hp, hb, cartQtyFor_cons, add_assoc]
      · simp [hp, hb, cartQtyFor_cons, Ne.symm hp]
    · simp [hb]

lemma createTransactionE_ok_inv (db : DB) (input : CreateTransactionInput)
    (userId branchId : ℕ) (txnNumber : String) (db' : DB) (txn : TransactionRow)
    (h : createTransactionE db input userId branchId txnNumber = .ok (db', txn)) :
    ∃ s db1,
      computeSubtotal db input.items = .ok s ∧
      txn = mkTxnRow db input userId branchId txnNumber s ∧
      processItems branchId txn.id (insertTxnRow db txn) input.items = .ok db1 ∧
      db' = insertPayments db1 input.payments txn.id := by
  unfold createTransactionE at h
  obtain ⟨u, hc, h⟩ := exbind_ok_inv _ _ _ h
  obtain ⟨s, hs, h⟩ := exbind_ok_inv _ _ _ h
  obtain ⟨db1, hp, h⟩ := exbind_ok_inv _ _ _ h
  simp only [Except.ok.injEq, Prod.mk.injEq] at h
  refine ⟨s, db1, hs, h.2.symm, ?_, ?_⟩
  · rw [← h.2]
    exact hp
  · rw [← h.2]
    exact h.1.symm

lemma processItems_transactions (branchId txnId : ℕ) (items : List CartItem)
    (db db' : DB) (h : processItems branchId txnId db items = .ok db') :
    db'.transactions = db.transactions := by
  induction items generalizing db with
  | nil =>
    simp only [processItems, List.foldlM_nil] at h
    cases h
    rfl
  | cons it rest ih =>
    simp only [processItems, List.foldlM_cons] at h
    obtain ⟨dbi, h1, h2⟩ := exbind_ok_inv _ _ _ h
    obtain ⟨db2, cs, hA, hS, hle, hdb'⟩ := processOneItem_ok_inv _ _ _ _ _ h1
    have hfr := (insertAddonRows_frame _ _ _ _ hA).2
    subst hdb'
    rw [ih _ h2]
    exact hfr

lemma createTransaction_ok_inv (db : DB) (input : CreateTransactionInput)
    (userId branchId : ℕ) (txnNumber : String) (txn : TransactionRow)
    (h : (createTransaction db input userId branchId txnNumber).2 = .ok txn) :
    ∃ s db1,
      computeSubtotal db input.items = .ok s ∧
      txn = mkTxnRow db input userId branchId txnNumber s ∧
      processItems branchId txn.id (insertTxnRow db txn) input.items = .ok db1 ∧
      (createTransaction db input userId branchId txnNumber).1
        = insertPayments db1 input.payments txn.id := by
  unfold createTransaction at h ⊢
  cases hE : createTransactionE db input userId branchId txnNumber with
  | error e =>
    rw [hE] at h
    exact absurd h (by simp)
  | ok v =>
    obtain ⟨db2, txn2⟩ := v
    rw [hE] at h
    simp only [Except.ok.injEq] at h
    exact h ▸ createTransactionE_ok_inv db input userId branchId txnNumber db2 txn2 hE

/-- C2 (amended): when every monetary input of the cart — each item's unit
price and discount, the cart-level discount and tax, and every addon price
on file — is a whole number of cents (representable at the scale 2 the
`numeric(…, 2)` columns store), the persisted transaction reconciles
exactly: its total equals `subtotal − discount_amount + tax_amount`, its
subtotal equals the sum of the item line totals plus the sum of the addon
totals at stored prices, its discount and tax are the cart's, and the
returned row is the row appended to the transactions table.  Without the
cents restriction the identity fails on the stored row, because each column
is rounded to two decimals independently (see the counterexample). -/
theorem c2_total_reconciliation (db : DB) (input : CreateTransactionInput)
    (userId branchId : ℕ) (txnNumber : String) (txn : TransactionRow)
    (haddons : ∀ a ∈ db.addons, isCents a.price)
    (hitems : ∀ it ∈ input.items, isCents it.unit_price ∧ isCents it.discount_amount)
    (hdisc : isCents input.discount_amount) (htax : isCents input.tax_amount)
    (h : (createTransaction db input userId branchId txnNumber).2 = .ok txn) :
    txn.total_amount = txn.subtotal - txn.discount_amount + txn.tax_amount ∧
    txn.subtotal = (input.items.map cartItemTotal).sum
      + (input.items.map (addonsTotal db)).sum ∧
    txn.discount_amount = input.discount_amount ∧
    txn.tax_amount = input.tax_amount ∧
    (createTransaction db input userId branchId txnNumber).1.transactions
      = db.transactions ++ [txn] := by
  obtain ⟨s, db1, hs, htxn, hp, hdb'⟩ :=
    createTransaction_ok_inv db input userId branchId txnNumber txn h
  have hsv := computeSubtotal_ok db input.items s hs
  have hcents_item : ∀ it ∈ input.items, isCents (cartItemTotal it) := by
    intro it hit
    have hi := hitems it hit
    exact isCents_sub (isCents_intMul it.quantity hi.1) hi.2
  have hcents_addon : ∀ it ∈ input.items, isCents (addonsTotal db it) := by
    intro it hit
    unfold addonsTotal
    apply isCents_sum
    intro x hx
    rcases List.mem_map.1 hx with ⟨a, ha, rfl⟩
    cases hf : findAddon db a.addon_id with
    | none => simpa [hf] using isCents_intMul a.quantity isCents_zero
    | some row =>
      have hmem : row ∈ db.addons := List.mem_of_find?_eq_some hf
      simpa [hf] using isCents_intMul a.quantity (haddons row hmem)
  have hs_cents : isCents s := by
    rw [hsv]
    refine isCents_add (isCents_sum _ ?_) (isCents_sum _ ?_)
    · intro x hx
      rcases List.mem_map.1 hx with ⟨it, hit, rfl⟩
      exact hcents_item it hit
    · intro x hx
      rcases List.mem_map.1 hx with ⟨it, hit, rfl⟩
      exact hcents_addon it hit
  have htot_cents : isCents (s - input.discount_amount + input.tax_amount) :=
    isCents_add (isCents_sub hs_cents hdisc) htax
  subst htxn
  refine ⟨?_, ?_, ?_, ?_, ?_⟩
  · show round2 (s - input.discount_amount + input.tax_amount)
      = round2 s - round2 input.discount_amount + round2 input.tax_amount
    rw [round2_of_isCents _ htot_cents, round2_of_isCents _ hs_cents,
      round2_of_isCents _ hdisc, round2_of_isCents _ htax]
  · show round2 s = _
    rw [round2_of_isCents _ hs_cents]
    exact hsv
  · show round2 input.discount_amount = _
    exact round2_of_isCents _ hdisc
  · show round2 input.tax_amount = _
    exact round2_of_isCents _ htax
  · rw [hdb', (insertPayments_frame _ _ _).2,
      processItems_transactions _ _ _ _ _ hp]
    rfl

instance (l : List StockRow) : Decidable (StockWF l) := by
  unfold StockWF
  infer_instance

/-- C9: every successful `createTransaction` call persists the transaction
with status PENDING, and its whole effect on the stock table is to add, to
each row of the transaction's branch, the cart's total requested quantity of
that row's product to `reserved_quantity` — so each cart item raises its
stock row's reservation by exactly its quantity, every on-hand `quantity`
column is untouched, and rows of other branches or of products the cart does
not reference are unchanged.  The hypothesis is the stock table's uniqueness
constraints (primary key and the `(product_id, branch_id)` unique index). -/
theorem c9_pending_reservation (db : DB) (input : CreateTransactionInput)
    (userId branchId : ℕ) (txnNumber : String) (txn : TransactionRow)
    (hwf : StockWF db.stock)
    (h : (createTransaction db input userId branchId txnNumber).2 = .ok txn) :
    txn.status = .PENDING ∧
    (createTransaction db input userId branchId txnNumber).1.stock
      = db.stock.map (reserveDelta branchId input.items) := by
  obtain ⟨s, db1, hs, htxn, hp, hdb'⟩ :=
    createTransaction_ok_inv db input userId branchId txnNumber txn h
  constructor
  · rw [htxn]
    rfl
  · have hwf0 : StockWF (insertTxnRow db txn).stock := hwf
    have hst := (processItems_stock branchId txn.id input.items
      (insertTxnRow db txn) db1 hwf0 hp).1
    rw [hdb', (insertPayments_frame _ _ _).1, hst]
    rfl

/-- A store with product 5, addon 9 priced 2.50, and a stock row of 100 on
hand for product 5 at branch 1. -/
def dbTx : DB :=
  { dbEmpty with products := [5], addons := [⟨9, 5/2⟩], stock := [⟨1, 5, 1, 100, 0⟩] }

/-- The spec's scenario cart: one item of product 5, quantity 2 at unit
price 15.00 with discount 0, carrying one addon (quantity 1), cart discount
0, tax 1.50, paid 34.00 cash. -/
def inTx : CreateTransactionInput :=
  ⟨none, [⟨5, none, 2, 15, 0, none, [⟨9, 1⟩]⟩], 0, 3/2, [⟨"CASH", 34, none⟩], none⟩

/-- The transaction row the scenario cart persists: subtotal 32.50
(= 65/2), total 34.00, status PENDING. -/
def txRow : TransactionRow := ⟨1, "T", 1, none, 7, 65/2, 0, 3/2, 34, .PENDING, none⟩

/-- C2, witness: the scenario cart (quantity 2 × 15.00, addon 2.50, tax
1.50, discount 0) persists with subtotal 32.50 and total 34.00, and the
reconciliation identities hold for the persisted row. -/
theorem c2_witness :
    (createTransaction dbTx inTx 7 1 "T").2 = .ok txRow ∧
    txRow.subtotal = 65/2 ∧
    txRow.total_amount = 34 ∧
    txRow.total_amount = txRow.subtotal - txRow.discount_amount + txRow.tax_amount ∧
    txRow.subtotal = (inTx.items.map cartItemTotal).sum
      + (inTx.items.map (addonsTotal dbTx)).sum := by
  have h : (createTransaction dbTx inTx 7 1 "T").2 = .ok txRow := by
    with_unfolding_all decide
  have haddons : ∀ a ∈ dbTx.addons, isCents a.price := by
    intro a ha
    have hae : a = ⟨9, 5/2⟩ := by
      have he : dbTx.addons = [⟨9, 5/2⟩] := rfl
      rw [he] at ha
      simpa using ha
    subst hae
    exact ⟨250, by with_unfolding_all decide⟩
  have hitems : ∀ it ∈ inTx.items, isCents it.unit_price ∧ isCents it.discount_amount := by
    intro it hit
    have hti : it = ⟨5, none, 2, 15, 0, none, [⟨9, 1⟩]⟩ := by
      have he : inTx.items = [⟨5, none, 2, 15, 0, none, [⟨9, 1⟩]⟩] := rfl
      rw [he] at hit
      simpa using hit
    subst hti
    exact ⟨⟨1500, by with_unfolding_all decide⟩, ⟨0, by with_unfolding_all decide⟩⟩
  have hc := c2_total_reconciliation dbTx inTx 7 1 "T" txRow haddons hitems
    ⟨0, by with_unfolding_all decide⟩ ⟨150, by with_unfolding_all decide⟩ h
  exact ⟨h, by with_unfolding_all decide, by with_unfolding_all decide, hc.1, hc.2.1⟩

/-- A cart of one item (quantity 1 at unit price 1.00, no item discount)
with a cart-level discount of 0.005 — a value the input schema accepts (it
is non-negative) but the scale-2 money columns cannot represent. -/
def inC2bad : CreateTransactionInput :=
  ⟨none, [⟨5, none, 1, 1, 0, none, []⟩], 1/200, 0, [], none⟩

/-- The row the 0.005-discount cart persists: the columns round
independently — the discount 0.005 rounds up to 0.01 while the total
0.995 rounds up to 1.00 — so the stored row fails the reconciliation
identity (1.00 ≠ 1.00 − 0.01 + 0.00). -/
def rowC2bad : TransactionRow := ⟨1, "T", 1, none, 7, 1, 1/100, 0, 1, .PENDING, none⟩

/-- C2, counterexample: the claim quantifies over every successful call, but
a cart whose cart-level discount is 0.005 passes the input schema,
`createTransaction` succeeds, and the persisted transaction violates
`total_amount = subtotal − discount_amount + tax_amount`: each monetary
column is rounded to two decimals independently when stored, so the
discount becomes 0.01 while the total 0.995 becomes 1.00. -/
theorem c2_counterexample :
    zodAccepts inC2bad ∧
    (handleCreateTransaction dbC8 inC2bad 7 1 "T").2 = .ok rowC2bad ∧
    rowC2bad.total_amount
      ≠ rowC2bad.subtotal - rowC2bad.discount_amount + rowC2bad.tax_amount := by
  with_unfolding_all decide

/-- C9, witness: the scenario call succeeds with status PENDING, and the
stock row for product 5 at branch 1 goes from reserved 0 to reserved 2
(the item's quantity) with on-hand 100 untouched. -/
theorem c9_witness :
    (createTransaction dbTx inTx 7 1 "T").2 = .ok txRow ∧
    txRow.status = .PENDING ∧
    (createTransaction dbTx inTx 7 1 "T").1.stock
      = dbTx.stock.map (reserveDelta 1 inTx.items) ∧
    (createTransaction dbTx inTx 7 1 "T").1.stock = [⟨1, 5, 1, 100, 2⟩] := by
  have h : (createTransaction dbTx inTx 7 1 "T").2 = .ok txRow := by
    with_unfolding_all decide
  have hc := c9_pending_reservation dbTx inTx 7 1 "T" txRow (by decide) h
  exact ⟨h, hc.1, hc.2, by with_unfolding_all decide⟩

end POS
